import Mathlib

/-!
# Task List Manager — verification of the task store

A shallow embedding of `src/index.js`, a persisted task store exposing the
operations `add_task`, `list_tasks`, `complete_task` and the read-only
`task_list` snapshot, backed by a single JSON file (`tasks.json`).

Modelling choices:
* A task record is the four-field object built by `add_task`
  (`id`, `title`, `completed`, `createdAt`).
* The durable file is modelled by `FileContent`: it is absent, holds
  contents that `JSON.parse` rejects (`corrupt`), holds a well-formed
  encoded task array (`stored`), or is inaccessible so that reading it
  fails with some error `e` that is neither ENOENT nor a `SyntaxError`
  (`failing e`, e.g. permission denied).
* `FsState` pairs the file content with a `journal` recording every
  `fs.writeFile` performed (most recent last), so that "performs no save"
  is directly observable: an operation saved iff the journal grew.
* Each handler is a function `FsState → Except FsError α × FsState`:
  a thrown JavaScript error is `Except.error`, and the state component is
  the file system afterwards.
* `new Date().toISOString()` is an input (`now`) to `add_task`, since the
  clock is external to the store.
-/

namespace TaskStore

/-- One task record, as built by `add_task` in `src/index.js`:
`{ id, title, completed, createdAt }`. -/
structure Task where
  id : Int
  title : String
  completed : Bool
  createdAt : String
deriving DecidableEq, Repr

/-- An opaque identity for a file-system error that is neither ENOENT nor a
`SyntaxError` (e.g. permission denied).  `readTasks` re-throws such errors
unmodified, so the model only needs their identity. -/
structure FsError where
  code : Nat
deriving DecidableEq, Repr

/-- The durable state of `tasks.json`. -/
inductive FileContent where
  /-- The file does not exist (reading throws ENOENT). -/
  | absent : FileContent
  /-- The file exists but `JSON.parse` throws a `SyntaxError` on it. -/
  | corrupt : FileContent
  /-- The file holds the JSON encoding of this task array. -/
  | stored (tasks : List Task) : FileContent
  /-- Reading the file throws the error `e`, which is neither ENOENT nor a
  `SyntaxError` (e.g. EACCES). -/
  | failing (e : FsError) : FileContent
deriving DecidableEq, Repr

/-- The file system as the store sees it: current file content plus a
journal of every `fs.writeFile` call performed so far (most recent last). -/
structure FsState where
  file : FileContent
  journal : List (List Task)
deriving DecidableEq, Repr

/-- `writeTasks(tasks)`: `fs.writeFile(TASKS_FILE, JSON.stringify(tasks, null, 2))`.
Fully replaces the file with the encoding of `tasks`; the journal records
the write event. -/
def writeTasks (tasks : List Task) (st : FsState) : FsState :=
  { file := FileContent.stored tasks, journal := st.journal ++ [tasks] }

/-- `readTasks()` (first variant, `src/index.js` lines 34–62):
read and `JSON.parse` the file; on ENOENT write `[]` to disk and return `[]`;
on `SyntaxError` overwrite with `[]` and return `[]`; re-throw anything else. -/
def readTasks (st : FsState) : Except FsError (List Task) × FsState :=
  match st.file with
  | FileContent.stored tasks => (Except.ok tasks, st)
  | FileContent.absent => (Except.ok [], writeTasks [] st)
  | FileContent.corrupt => (Except.ok [], writeTasks [] st)
  | FileContent.failing e => (Except.error e, st)

/-- `readTasks()` (second variant, `src/index.js` lines 286–297):
on ENOENT or `SyntaxError` just return `[]` without touching the file;
re-throw anything else. -/
def readTasksV2 (st : FsState) : Except FsError (List Task) × FsState :=
  match st.file with
  | FileContent.stored tasks => (Except.ok tasks, st)
  | FileContent.absent => (Except.ok [], st)
  | FileContent.corrupt => (Except.ok [], st)
  | FileContent.failing e => (Except.error e, st)

/-- `getNextId(tasks)`: `1` for an empty list, otherwise
`Math.max(...tasks.map(t => t.id)) + 1`. -/
def getNextId (tasks : List Task) : Int :=
  match tasks with
  | [] => 1
  | t :: ts => (ts.map (fun x => x.id)).foldl max t.id + 1

/-- The value a tool handler returns to the MCP layer: the single text
content item, plus the `isError` flag (absent in JS ⇒ `false`). -/
structure ToolResult where
  isError : Bool
  text : String
deriving DecidableEq, Repr

/-- The pure core of the `add_task` handler: build the new task from the
loaded collection and push it at the end. -/
def addTaskCore (title now : String) (tasks : List Task) : Task × List Task :=
  let newTask : Task := { id := getNextId tasks, title := title, completed := false, createdAt := now }
  (newTask, tasks ++ [newTask])

/-- The `add_task` tool handler: load, build the new task, append, save,
return the confirmation text. -/
def add_task (title now : String) (st : FsState) : Except FsError ToolResult × FsState :=
  match readTasks st with
  | (Except.error e, st1) => (Except.error e, st1)
  | (Except.ok tasks, st1) =>
      let p := addTaskCore title now tasks
      let msg := "Task added successfully!\n\n  ID:    " ++ toString p.1.id ++
        "\n  Title: " ++ p.1.title ++ "\n  Date:  " ++ p.1.createdAt
      (Except.ok { isError := false, text := msg }, writeTasks p.2 st1)

/-- The `list_tasks` tool handler: load; empty collection gets the friendly
message, otherwise one formatted line per task, in collection order. -/
def list_tasks (st : FsState) : Except FsError ToolResult × FsState :=
  match readTasks st with
  | (Except.error e, st1) => (Except.error e, st1)
  | (Except.ok tasks, st1) =>
      if tasks.length = 0 then
        (Except.ok { isError := false, text := "No tasks yet. Use add_task to create one!" }, st1)
      else
        let formatted := String.intercalate "\n" (tasks.map (fun t =>
          "[" ++ toString t.id ++ "] " ++ t.title ++ "  (" ++
            (if t.completed then "done" else "pending") ++ ")  — created " ++ t.createdAt))
        let msg := "Tasks (" ++ toString tasks.length ++ "):\n\n" ++ formatted
        (Except.ok { isError := false, text := msg }, st1)

/-- `task.completed = true` on the task object returned by
`tasks.find(t => t.id === id)`: in-place mutation of the first task whose
id matches, leaving every other element untouched. -/
def setCompletedFirst (id : Int) : List Task → List Task
  | [] => []
  | t :: ts =>
      if t.id == id then { t with completed := true } :: ts
      else t :: setCompletedFirst id ts

/-- The `complete_task` tool handler: load; look up the task by id;
not found ⇒ error result, no save; already completed ⇒ informational
result, no save; otherwise set `completed`, save, report success. -/
def complete_task (id : Int) (st : FsState) : Except FsError ToolResult × FsState :=
  match readTasks st with
  | (Except.error e, st1) => (Except.error e, st1)
  | (Except.ok tasks, st1) =>
      match tasks.find? (fun t => t.id == id) with
      | none =>
          let msg := "Error: No task found with ID " ++ toString id ++ "."
          (Except.ok { isError := true, text := msg }, st1)
      | some task =>
          if task.completed then
            let msg := "Task " ++ toString id ++ " (\"" ++ task.title ++
              "\") is already marked as completed."
            (Except.ok { isError := false, text := msg }, st1)
          else
            let msg := "Task " ++ toString id ++ " (\"" ++ task.title ++
              "\") marked as completed!"
            (Except.ok { isError := false, text := msg },
              writeTasks (setCompletedFirst id tasks) st1)

/-- Lower-case hex digit, as used by `JSON.stringify` for control-character
escapes. -/
def hexDigit (n : Nat) : Char :=
  if n < 10 then Char.ofNat (48 + n) else Char.ofNat (87 + n)

/-- `JSON.stringify` escaping of a single character inside a JSON string. -/
def jsonEscapeChar (c : Char) : String :=
  if c = '"' then "\\\""
  else if c = '\\' then "\\\\"
  else if c.toNat = 8 then "\\b"
  else if c.toNat = 9 then "\\t"
  else if c.toNat = 10 then "\\n"
  else if c.toNat = 12 then "\\f"
  else if c.toNat = 13 then "\\r"
  else if c.toNat < 32 then
    "\\u00" ++ String.singleton (hexDigit (c.toNat / 16)) ++ String.singleton (hexDigit (c.toNat % 16))
  else String.singleton c

/-- `JSON.stringify` escaping of a whole string body. -/
def jsonEscape (s : String) : String :=
  String.join (s.data.map jsonEscapeChar)

/-- One task record as laid out by `JSON.stringify(tasks, null, 2)`
(2-space indent, key order `id`, `title`, `completed`, `createdAt`). -/
def stringifyTask (t : Task) : String :=
  "  \x7b\n    \"id\": " ++ toString t.id ++
    ",\n    \"title\": \"" ++ jsonEscape t.title ++
    "\",\n    \"completed\": " ++ (if t.completed then "true" else "false") ++
    ",\n    \"createdAt\": \"" ++ jsonEscape t.createdAt ++ "\"\n  \x7d"

/-- `JSON.stringify(tasks, null, 2)`: the exact bytes written to
`tasks.json` and served by the `task_list` resource. -/
def stringifyTasks (tasks : List Task) : String :=
  match tasks with
  | [] => "[]"
  | _ => "[\n" ++ String.intercalate ",\n" (tasks.map stringifyTask) ++ "\n]"

/-- The `task_list` resource handler: load and return the collection
encoded exactly as the durable representation. -/
def task_list (st : FsState) : Except FsError String × FsState :=
  match readTasks st with
  | (Except.error e, st1) => (Except.error e, st1)
  | (Except.ok tasks, st1) => (Except.ok (stringifyTasks tasks), st1)

/-- Runs a sequence of `add_task` core steps over a collection, returning
the ids assigned (in call order) and the final collection. -/
def runAdds : List (String × String) → List Task → List Int × List Task
  | [], tasks => ([], tasks)
  | (title, now) :: rest, tasks =>
      let p := addTaskCore title now tasks
      let q := runAdds rest p.2
      (p.1.id :: q.1, q.2)

/-- `t'` preserves the identity of `t`: same `id`, `title`, `createdAt`,
and `completed` never reverts from `true` to `false`. -/
def preservesTask (t t' : Task) : Prop :=
  t'.id = t.id ∧ t'.title = t.title ∧ t'.createdAt = t.createdAt ∧
    (t.completed = true → t'.completed = true)

/-- C1: `readTasks` on a missing durable file returns the empty collection,
surfaces no error, and durably initializes the file to a valid empty array
(one write of `[]` is journalled); on an unparsable file it likewise returns
the empty collection and durably resets the file to the empty array; in both
cases a subsequent read of the resulting file sees the stored empty array,
not a missing file. -/
theorem claim_C1 : ∀ journal : List (List Task),
    readTasks { file := FileContent.absent, journal := journal }
      = (Except.ok [], { file := FileContent.stored [], journal := journal ++ [[]] })
  ∧ readTasks { file := FileContent.corrupt, journal := journal }
      = (Except.ok [], { file := FileContent.stored [], journal := journal ++ [[]] })
  ∧ readTasks { file := FileContent.stored [], journal := journal ++ [[]] }
      = (Except.ok [], { file := FileContent.stored [], journal := journal ++ [[]] }) := by
  intro journal
  exact ⟨rfl, rfl, rfl⟩

/-- C8: every durable-storage access failure other than ENOENT and
`SyntaxError` (modelled as `FileContent.failing e` for an arbitrary error
identity `e`) is not recovered inside `readTasks`: the very same error `e`
is re-thrown, the file content is untouched and nothing is written
(journal unchanged); consequently it propagates unmodified out of every
operation handler. -/
theorem claim_C8 : ∀ (e : FsError) (j : List (List Task)) (title now : String) (id : Int),
    readTasks { file := FileContent.failing e, journal := j }
      = (Except.error e, { file := FileContent.failing e, journal := j })
  ∧ add_task title now { file := FileContent.failing e, journal := j }
      = (Except.error e, { file := FileContent.failing e, journal := j })
  ∧ list_tasks { file := FileContent.failing e, journal := j }
      = (Except.error e, { file := FileContent.failing e, journal := j })
  ∧ complete_task id { file := FileContent.failing e, journal := j }
      = (Except.error e, { file := FileContent.failing e, journal := j })
  ∧ task_list { file := FileContent.failing e, journal := j }
      = (Except.error e, { file := FileContent.failing e, journal := j }) := by
  intro e j title now id
  exact ⟨rfl, rfl, rfl, rfl, rfl⟩

/-- C9 counterexample: the two `readTasks` variants are NOT observationally
equivalent.  On an absent durable file they return the same collection
value, but the first variant leaves the file as a stored empty array while
the second leaves it absent. -/
theorem claim_C9_counterexample :
    (readTasks { file := FileContent.absent, journal := [] }).1
      = (readTasksV2 { file := FileContent.absent, journal := [] }).1
  ∧ (readTasks { file := FileContent.absent, journal := [] }).2.file
      = FileContent.stored []
  ∧ (readTasksV2 { file := FileContent.absent, journal := [] }).2.file
      = FileContent.absent
  ∧ FileContent.stored ([] : List Task) ≠ FileContent.absent := by
  refine ⟨rfl, rfl, rfl, ?_⟩
  intro h
  exact FileContent.noConfusion h

/-- C9 amended: for every durable-file state the two `readTasks` variants
return the same value (the same collection, or the same re-thrown error),
and on a validly stored collection they are fully equivalent; but on an
absent or unparsable file their after-states differ: the first variant
rewrites the file to a stored empty array (journalling the write) while
the second leaves the file untouched. -/
theorem claim_C9_amended :
    (∀ st : FsState, (readTasks st).1 = (readTasksV2 st).1)
  ∧ (∀ (ts : List Task) (j : List (List Task)),
      readTasks { file := FileContent.stored ts, journal := j }
        = readTasksV2 { file := FileContent.stored ts, journal := j })
  ∧ (∀ j : List (List Task),
      (readTasks { file := FileContent.absent, journal := j }).2
          = { file := FileContent.stored [], journal := j ++ [[]] }
      ∧ (readTasksV2 { file := FileContent.absent, journal := j }).2
          = { file := FileContent.absent, journal := j })
  ∧ (∀ j : List (List Task),
      (readTasks { file := FileContent.corrupt, journal := j }).2
          = { file := FileContent.stored [], journal := j ++ [[]] }
      ∧ (readTasksV2 { file := FileContent.corrupt, journal := j }).2
          = { file := FileContent.corrupt, journal := j }) := by
  refine ⟨?_, ?_, ?_, ?_⟩
  · intro st
    rcases st with ⟨file, j⟩
    cases file <;> rfl
  · intro ts j
    rfl
  · intro j
    exact ⟨rfl, rfl⟩
  · intro j
    exact ⟨rfl, rfl⟩

/-- C10: the core performs no non-emptiness check on the title: for every
string `title` — the empty string included — `add_task` succeeds (no error
flag), persists a task whose `title` field is the given string verbatim,
and in particular `add_task ""` on an empty store stores and confirms a
task with the empty title. -/
theorem claim_C10 :
    (∀ (title now : String) (tasks : List Task) (j : List (List Task)),
      add_task title now { file := FileContent.stored tasks, journal := j }
        = (Except.ok
             { isError := false,
               text := "Task added successfully!\n\n  ID:    " ++ toString (getNextId tasks) ++
                 "\n  Title: " ++ title ++ "\n  Date:  " ++ now },
           { file := FileContent.stored
               (tasks ++ [{ id := getNextId tasks, title := title, completed := false, createdAt := now }]),
             journal := j ++
               [tasks ++ [{ id := getNextId tasks, title := title, completed := false, createdAt := now }]] }))
  ∧ add_task "" "1970-01-01T00:00:00.000Z" { file := FileContent.stored [], journal := [] }
      = (Except.ok
           { isError := false,
             text := "Task added successfully!\n\n  ID:    1\n  Title: \n  Date:  1970-01-01T00:00:00.000Z" },
         { file := FileContent.stored
             [{ id := 1, title := "", completed := false, createdAt := "1970-01-01T00:00:00.000Z" }],
           journal :=
             [[{ id := 1, title := "", completed := false, createdAt := "1970-01-01T00:00:00.000Z" }]] }) := by
  constructor
  · intro title now tasks j
    rfl
  · rfl

/-- C3: for every stored collection and every id present in none of its
tasks, `complete_task id` returns a result flagged as an error whose text
names the offending id, and the file-system state is completely unchanged:
same stored collection and no write journalled. -/
theorem claim_C3 (tasks : List Task) (j : List (List Task)) (id : Int)
    (h : ∀ t ∈ tasks, t.id ≠ id) :
    complete_task id { file := FileContent.stored tasks, journal := j }
      = (Except.ok
           { isError := true,
             text := "Error: No task found with ID " ++ toString id ++ "." },
         { file := FileContent.stored tasks, journal := j }) := by
  have hf : tasks.find? (fun t => t.id == id) = none := by
    rw [List.find?_eq_none]
    intro t ht
    simpa using h t ht
  simp [complete_task, readTasks, hf]

/-- Witness for C3 at a concrete store and id. -/
theorem claim_C3_witness :
    complete_task 7
        { file := FileContent.stored [{ id := 1, title := "a", completed := false, createdAt := "d" }],
          journal := [] }
      = (Except.ok
           { isError := true,
             text := "Error: No task found with ID " ++ toString (7 : Int) ++ "." },
         { file := FileContent.stored [{ id := 1, title := "a", completed := false, createdAt := "d" }],
           journal := [] }) :=
  claim_C3 [{ id := 1, title := "a", completed := false, createdAt := "d" }] [] 7 (by decide)

/-- C5: from any file-system state whose load succeeds with collection
`tasks`, `add_task title` constructs the task
`{ id := getNextId tasks, title, completed := false, createdAt := now }`,
appends it at the end (all existing tasks kept, in order), saves the whole
extended collection via `writeTasks`, and returns a success result showing
the new task's id, title and date. -/
theorem claim_C5 (title now : String) (st st1 : FsState) (tasks : List Task)
    (h : readTasks st = (Except.ok tasks, st1)) :
    add_task title now st
      = (Except.ok
           { isError := false,
             text := "Task added successfully!\n\n  ID:    " ++ toString (getNextId tasks) ++
               "\n  Title: " ++ title ++ "\n  Date:  " ++ now },
         writeTasks
           (tasks ++ [{ id := getNextId tasks, title := title, completed := false, createdAt := now }])
           st1) := by
  simp [add_task, h, addTaskCore]

/-- Witness for C5: adding "Buy milk" to an empty stored collection. -/
theorem claim_C5_witness :
    add_task "Buy milk" "2024-05-01T00:00:00.000Z"
        { file := FileContent.stored [], journal := [] }
      = (Except.ok
           { isError := false,
             text := "Task added successfully!\n\n  ID:    " ++ toString (getNextId ([] : List Task)) ++
               "\n  Title: " ++ "Buy milk" ++ "\n  Date:  " ++ "2024-05-01T00:00:00.000Z" },
         writeTasks
           ([] ++ [{ id := getNextId ([] : List Task), title := "Buy milk", completed := false,
                     createdAt := "2024-05-01T00:00:00.000Z" }])
           { file := FileContent.stored [], journal := [] }) :=
  claim_C5 "Buy milk" "2024-05-01T00:00:00.000Z"
    { file := FileContent.stored [], journal := [] }
    { file := FileContent.stored [], journal := [] } [] rfl

/-- C6: `list_tasks` on a stored collection performs no mutation (the
file-system state is returned unchanged); the empty collection yields the
distinct "no tasks" message, and a non-empty collection yields the header
followed by one formatted line per task — produced by mapping over the
collection in insertion order, never re-sorted — showing id, title,
"done"/"pending" status and creation timestamp. -/
theorem claim_C6 (tasks : List Task) (j : List (List Task)) :
    (tasks = [] →
      list_tasks { file := FileContent.stored tasks, journal := j }
        = (Except.ok { isError := false, text := "No tasks yet. Use add_task to create one!" },
           { file := FileContent.stored tasks, journal := j }))
  ∧ (tasks ≠ [] →
      list_tasks { file := FileContent.stored tasks, journal := j }
        = (Except.ok
             { isError := false,
               text := "Tasks (" ++ toString tasks.length ++ "):\n\n" ++
                 String.intercalate "\n" (tasks.map (fun t =>
                   "[" ++ toString t.id ++ "] " ++ t.title ++ "  (" ++
                     (if t.completed then "done" else "pending") ++ ")  — created " ++ t.createdAt)) },
           { file := FileContent.stored tasks, journal := j })) := by
  constructor
  · intro he
    subst he
    rfl
  · intro hne
    have hlen : ¬ tasks.length = 0 := by
      simpa [List.length_eq_zero] using hne
    simp [list_tasks, readTasks, hlen]

/-- Witness for C6: listing a one-task stored collection. -/
theorem claim_C6_witness :
    list_tasks
        { file := FileContent.stored [{ id := 1, title := "Buy milk", completed := false, createdAt := "d" }],
          journal := [] }
      = (Except.ok
           { isError := false,
             text := "Tasks (" ++
               toString ([{ id := 1, title := "Buy milk", completed := false, createdAt := "d" }] : List Task).length ++
               "):\n\n" ++
               String.intercalate "\n"
                 (([{ id := 1, title := "Buy milk", completed := false, createdAt := "d" }] : List Task).map (fun t =>
                   "[" ++ toString t.id ++ "] " ++ t.title ++ "  (" ++
                     (if t.completed then "done" else "pending") ++ ")  — created " ++ t.createdAt)) },
         { file := FileContent.stored [{ id := 1, title := "Buy milk", completed := false, createdAt := "d" }],
           journal := [] }) :=
  (claim_C6 [{ id := 1, title := "Buy milk", completed := false, createdAt := "d" }] []).2
    (List.cons_ne_nil _ _)

/-- If `find?` locates a task by id, then after `setCompletedFirst` the
same lookup finds that task with `completed := true`. -/
theorem find?_setCompletedFirst (id : Int) (tasks : List Task) (t : Task)
    (h : tasks.find? (fun x => x.id == id) = some t) :
    (setCompletedFirst id tasks).find? (fun x => x.id == id)
      = some { t with completed := true } := by
  induction tasks with
  | nil => simp [List.find?] at h
  | cons x xs ih =>
      by_cases hx : x.id == id
      · have hxt : x = t := by
          simpa [List.find?, hx] using h
        subst hxt
        simp [setCompletedFirst, hx, List.find?]
      · have h' : xs.find? (fun y => y.id == id) = some t := by
          simpa [List.find?, hx] using h
        simp [setCompletedFirst, hx, List.find?, ih h']

/-- C4: `complete_task` is idempotent.  If the lookup of `id` in the stored
collection finds a task `t` with `completed = false`, the first call marks
it done, saves exactly once (one journal entry) and reports success; the
second call with the same id finds `completed = true`, reports the
informational "already completed" outcome and returns the file-system
state of the first call completely unchanged — same stored list, hence
byte-for-byte the same file, and no new write journalled. -/
theorem claim_C4 (tasks : List Task) (j : List (List Task)) (id : Int) (t : Task)
    (hfind : tasks.find? (fun x => x.id == id) = some t) (hc : t.completed = false) :
    complete_task id { file := FileContent.stored tasks, journal := j }
      = (Except.ok
           { isError := false,
             text := "Task " ++ toString id ++ " (\"" ++ t.title ++ "\") marked as completed!" },
         { file := FileContent.stored (setCompletedFirst id tasks),
           journal := j ++ [setCompletedFirst id tasks] })
  ∧ complete_task id
        { file := FileContent.stored (setCompletedFirst id tasks),
          journal := j ++ [setCompletedFirst id tasks] }
      = (Except.ok
           { isError := false,
             text := "Task " ++ toString id ++ " (\"" ++ t.title ++ "\") is already marked as completed." },
         { file := FileContent.stored (setCompletedFirst id tasks),
           journal := j ++ [setCompletedFirst id tasks] }) := by
  constructor
  · simp [complete_task, readTasks, hfind, hc, writeTasks]
  · have h2 := find?_setCompletedFirst id tasks t hfind
    simp [complete_task, readTasks, h2]

/-- Witness for C4 on a one-task store. -/
theorem claim_C4_witness :
    (complete_task 1
        { file := FileContent.stored [{ id := 1, title := "a", completed := false, createdAt := "d" }],
          journal := [] }
      = (Except.ok
           { isError := false,
             text := "Task " ++ toString (1 : Int) ++ " (\"" ++ "a" ++ "\") marked as completed!" },
         { file := FileContent.stored
             (setCompletedFirst 1 [{ id := 1, title := "a", completed := false, createdAt := "d" }]),
           journal := [] ++ [setCompletedFirst 1 [{ id := 1, title := "a", completed := false, createdAt := "d" }]] }))
  ∧ (complete_task 1
        { file := FileContent.stored
            (setCompletedFirst 1 [{ id := 1, title := "a", completed := false, createdAt := "d" }]),
          journal := [] ++ [setCompletedFirst 1 [{ id := 1, title := "a", completed := false, createdAt := "d" }]] }
      = (Except.ok
           { isError := false,
             text := "Task " ++ toString (1 : Int) ++ " (\"" ++ "a" ++ "\") is already marked as completed." },
         { file := FileContent.stored
             (setCompletedFirst 1 [{ id := 1, title := "a", completed := false, createdAt := "d" }]),
           journal := [] ++ [setCompletedFirst 1 [{ id := 1, title := "a", completed := false, createdAt := "d" }]] })) :=
  claim_C4 [{ id := 1, title := "a", completed := false, createdAt := "d" }] [] 1
    { id := 1, title := "a", completed := false, createdAt := "d" } (by rfl) rfl

/-- C7: across all operations a task's identity is immutable and completion
is monotone: `setCompletedFirst` (the only mutation `complete_task`
performs) relates old and new collections pointwise by `preservesTask`
(same id, title, createdAt; `completed` never reverts true→false);
`add_task`'s core leaves every existing task untouched, only appending;
`list_tasks` and the `task_list` snapshot leave the file system unchanged
on a stored collection; and `complete_task`'s final file is either the
untouched collection or exactly `setCompletedFirst` of it. -/
theorem claim_C7 :
    (∀ (id : Int) (tasks : List Task),
      List.Forall₂ preservesTask tasks (setCompletedFirst id tasks))
  ∧ (∀ (title now : String) (tasks : List Task),
      (addTaskCore title now tasks).2 = tasks ++ [(addTaskCore title now tasks).1])
  ∧ (∀ (tasks : List Task) (j : List (List Task)),
      (list_tasks { file := FileContent.stored tasks, journal := j }).2
        = { file := FileContent.stored tasks, journal := j })
  ∧ (∀ (tasks : List Task) (j : List (List Task)),
      (task_list { file := FileContent.stored tasks, journal := j }).2
        = { file := FileContent.stored tasks, journal := j })
  ∧ (∀ (id : Int) (tasks : List Task) (j : List (List Task)),
      ((complete_task id { file := FileContent.stored tasks, journal := j }).2).file
          = FileContent.stored tasks
      ∨ ((complete_task id { file := FileContent.stored tasks, journal := j }).2).file
          = FileContent.stored (setCompletedFirst id tasks)) := by
  refine ⟨?_, ?_, ?_, ?_, ?_⟩
  · intro id tasks
    induction tasks with
    | nil => exact List.Forall₂.nil
    | cons x xs ih =>
        by_cases hx : x.id == id
        · simp only [setCompletedFirst, if_pos hx]
          exact List.Forall₂.cons ⟨rfl, rfl, rfl, fun _ => rfl⟩
            (List.forall₂_same.mpr fun y _ => ⟨rfl, rfl, rfl, fun hy => hy⟩)
        · simp only [setCompletedFirst, if_neg hx]
          exact List.Forall₂.cons ⟨rfl, rfl, rfl, fun hy => hy⟩ ih
  · intro title now tasks
    rfl
  · intro tasks j
    cases tasks with
    | nil => rfl
    | cons x xs => simp [list_tasks, readTasks]
  · intro tasks j
    rfl
  · intro id tasks j
    cases hfind : tasks.find? (fun t => t.id == id) with
    | none =>
        left
        simp [complete_task, readTasks, hfind]
    | some t =>
        cases hc : t.completed with
        | true =>
            left
            simp [complete_task, readTasks, hfind, hc]
        | false =>
            right
            simp [complete_task, readTasks, hfind, hc, writeTasks]

/-- The initial accumulator is below the fold of `max` over a list. -/
theorem le_foldl_max (b : Int) (l : List Int) : b ≤ l.foldl max b := by
  induction l generalizing b with
  | nil => exact le_refl b
  | cons x xs ih => exact le_trans (le_max_left b x) (ih (max b x))

/-- Every member of a list is below the fold of `max` over it. -/
theorem mem_le_foldl_max (a : Int) (l : List Int) : ∀ b : Int, a ∈ l → a ≤ l.foldl max b := by
  induction l with
  | nil =>
      intro b h
      cases h
  | cons x xs ih =>
      intro b h
      rcases List.mem_cons.mp h with h1 | h2
      · subst h1
        exact le_trans (le_max_right b a) (le_foldl_max (max b a) xs)
      · exact ih (max b x) h2

/-- The fold of `max` is either the initial accumulator or a list member. -/
theorem foldl_max_choice (l : List Int) : ∀ b : Int, l.foldl max b = b ∨ l.foldl max b ∈ l := by
  induction l with
  | nil =>
      intro b
      exact Or.inl rfl
  | cons x xs ih =>
      intro b
      rcases ih (max b x) with h | h
      · rcases max_choice b x with hm | hm
        · exact Or.inl (h.trans hm)
        · refine Or.inr ?_
          have : List.foldl max b (x :: xs) = x := h.trans hm
          rw [this]
          exact List.mem_cons_self x xs
      · exact Or.inr (List.mem_cons_of_mem x h)

/-- `getNextId` is strictly above every id in the collection. -/
theorem getNextId_gt {tasks : List Task} {t : Task} (h : t ∈ tasks) :
    t.id < getNextId tasks := by
  cases tasks with
  | nil => cases h
  | cons t0 ts =>
      have hle : t.id ≤ (ts.map (fun x => x.id)).foldl max t0.id := by
        rcases List.mem_cons.mp h with h1 | h2
        · subst h1
          exact le_foldl_max _ _
        · exact mem_le_foldl_max t.id _ t0.id (List.mem_map_of_mem (fun x => x.id) h2)
      exact Int.lt_add_one_iff.mpr hle

/-- On a non-empty collection `getNextId` is (some member's id) + 1, and
that member's id is maximal by `getNextId_gt`. -/
theorem getNextId_eq_mem_succ (t0 : Task) (ts : List Task) :
    ∃ t ∈ t0 :: ts, getNextId (t0 :: ts) = t.id + 1 := by
  rcases foldl_max_choice (ts.map (fun x => x.id)) t0.id with h | h
  · refine ⟨t0, List.mem_cons_self t0 ts, ?_⟩
    show (ts.map (fun x => x.id)).foldl max t0.id + 1 = t0.id + 1
    rw [h]
  · rcases List.mem_map.mp h with ⟨t, ht, hid⟩
    refine ⟨t, List.mem_cons_of_mem t0 ht, ?_⟩
    show (ts.map (fun x => x.id)).foldl max t0.id + 1 = t.id + 1
    rw [hid]

/-- Each `add_task` step grows the collection by exactly one. -/
theorem runAdds_length (inputs : List (String × String)) : ∀ tasks : List Task,
    (runAdds inputs tasks).2.length = tasks.length + inputs.length := by
  induction inputs with
  | nil =>
      intro tasks
      simp [runAdds]
  | cons p rest ih =>
      intro tasks
      rcases p with ⟨title, now⟩
      have := ih (tasks ++ [{ id := getNextId tasks, title := title, completed := false, createdAt := now }])
      simp only [runAdds, addTaskCore] at this ⊢
      simp [this]
      omega

/-- Every id assigned during a run of adds is strictly above every id
already in the starting collection. -/
theorem runAdds_gt (inputs : List (String × String)) : ∀ (tasks : List Task) (i : Int),
    i ∈ (runAdds inputs tasks).1 → ∀ t ∈ tasks, t.id < i := by
  induction inputs with
  | nil =>
      intro tasks i hi
      simp [runAdds] at hi
  | cons p rest ih =>
      intro tasks i hi t ht
      rcases p with ⟨title, now⟩
      simp only [runAdds, addTaskCore, List.mem_cons] at hi
      rcases hi with h1 | h2
      · subst h1
        exact getNextId_gt ht
      · exact ih _ i h2 t (List.mem_append_left _ ht)

/-- The ids assigned during a run of adds are strictly increasing in call
order: each is strictly greater than all previously assigned ids. -/
theorem runAdds_pairwise (inputs : List (String × String)) : ∀ tasks : List Task,
    List.Pairwise (fun a b : Int => a < b) (runAdds inputs tasks).1 := by
  induction inputs with
  | nil =>
      intro tasks
      simp [runAdds]
  | cons p rest ih =>
      intro tasks
      rcases p with ⟨title, now⟩
      rw [show (runAdds ((title, now) :: rest) tasks).1
            = getNextId tasks ::
                (runAdds rest
                  (tasks ++ [{ id := getNextId tasks, title := title, completed := false, createdAt := now }])).1
          from rfl]
      rw [List.pairwise_cons]
      refine ⟨?_, ih _⟩
      intro i hi
      have hmem : ({ id := getNextId tasks, title := title, completed := false, createdAt := now } : Task)
          ∈ tasks ++ [{ id := getNextId tasks, title := title, completed := false, createdAt := now }] :=
        List.mem_append_right _ (List.mem_singleton_self _)
      exact runAdds_gt rest _ i hi _ hmem

/-- C2: `getNextId` returns 1 on the empty collection and (maximum
existing id) + 1 on a non-empty one (witnessed by a member whose id is
maximal); over any sequence of adds from any starting collection the
collection grows by exactly one per call and the assigned ids are strictly
increasing, each exceeding every id of the starting collection; and the
`add_task` handler on a stored collection realises exactly one core step
and saves the result. -/
theorem claim_C2 :
    getNextId [] = 1
  ∧ (∀ tasks : List Task, tasks ≠ [] →
      (∃ t ∈ tasks, getNextId tasks = t.id + 1) ∧ (∀ t ∈ tasks, t.id < getNextId tasks))
  ∧ (∀ (inputs : List (String × String)) (tasks : List Task),
      (runAdds inputs tasks).2.length = tasks.length + inputs.length)
  ∧ (∀ (inputs : List (String × String)) (tasks : List Task),
      List.Pairwise (fun a b : Int => a < b) (runAdds inputs tasks).1
      ∧ ∀ i ∈ (runAdds inputs tasks).1, ∀ t ∈ tasks, t.id < i)
  ∧ (∀ (title now : String) (tasks : List Task) (j : List (List Task)),
      add_task title now { file := FileContent.stored tasks, journal := j }
        = (Except.ok
             { isError := false,
               text := "Task added successfully!\n\n  ID:    " ++ toString (getNextId tasks) ++
                 "\n  Title: " ++ title ++ "\n  Date:  " ++ now },
           { file := FileContent.stored ((addTaskCore title now tasks).2),
             journal := j ++ [(addTaskCore title now tasks).2] })) := by
  refine ⟨rfl, ?_, ?_, ?_, ?_⟩
  · intro tasks hne
    cases tasks with
    | nil => exact absurd rfl hne
    | cons t0 ts =>
        exact ⟨getNextId_eq_mem_succ t0 ts, fun t ht => getNextId_gt ht⟩
  · intro inputs tasks
    exact runAdds_length inputs tasks
  · intro inputs tasks
    exact ⟨runAdds_pairwise inputs tasks, fun i hi t ht => runAdds_gt inputs tasks i hi t ht⟩
  · intro title now tasks j
    rfl

/-- Witness for C2 on a concrete non-empty collection. -/
theorem claim_C2_witness :
    (∃ t ∈ [({ id := 2, title := "a", completed := false, createdAt := "d" } : Task)],
        getNextId [{ id := 2, title := "a", completed := false, createdAt := "d" }] = t.id + 1)
  ∧ (∀ t ∈ [({ id := 2, title := "a", completed := false, createdAt := "d" } : Task)],
        t.id < getNextId [{ id := 2, title := "a", completed := false, createdAt := "d" }]) :=
  claim_C2.2.1 [{ id := 2, title := "a", completed := false, createdAt := "d" }]
    (List.cons_ne_nil _ _)

end TaskStore
